import Mathlib

/-!
Formal model of the `linked-slab` crate (`src/lib.rs`): a doubly-linked
list whose nodes live in a slab (slot arena) and are addressed by plain
integer indices.  Each Rust item is translated into an executable Lean
definition; `&mut self` methods become state-passing functions.
-/

set_option autoImplicit false

/-- A list node (`Node<T>` in the source): the payload `item` plus the
optional slab indices `next` and `prev` of its neighbours. -/
structure Node (T : Type) where
  item : T
  next : Option Nat
  prev : Option Nat
deriving Repr, DecidableEq

/-- Index-checked lookup in a sequence of slots (`none` = vacant slot,
out-of-range indices also give `none`). -/
def lookupSlot {T : Type} : List (Option T) → Nat → Option T
  | [], _ => none
  | o :: _, 0 => o
  | _ :: rest, n + 1 => lookupSlot rest n

/-- Overwrite slot `n` with `v`; out-of-range writes are no-ops (they never
happen in the modelled code paths). -/
def setSlot {T : Type} : List (Option T) → Nat → Option T → List (Option T)
  | [], _, _ => []
  | _ :: rest, 0, v => v :: rest
  | o :: rest, n + 1, v => o :: setSlot rest n v

/-- Model of the external `slab::Slab<T>`: a growable sequence of slots,
each vacant or occupied, together with the stack of vacated indices
(the crate reuses the most recently vacated slot first). -/
structure Slab (T : Type) where
  entries : List (Option T)
  free : List Nat
deriving Repr, DecidableEq

namespace Slab

variable {T : Type}

/-- `Slab::get`: checked access, `none` when out of range or vacant. -/
def get (s : Slab T) (i : Nat) : Option T := lookupSlot s.entries i

/-- `Slab::contains`: true iff `i` names a currently occupied slot. -/
def contains (s : Slab T) (i : Nat) : Bool := (s.get i).isSome

/-- `Slab::vacant_entry().key()` followed by `vacant.insert(v)`: store `v`
in the most recently vacated slot if one exists, else append a fresh slot.
Returns the new slab and the key of the filled slot. -/
def insert (s : Slab T) (v : T) : Slab T × Nat :=
  match s.free with
  | key :: rest => (⟨setSlot s.entries key (some v), rest⟩, key)
  | [] => (⟨s.entries ++ [some v], []⟩, s.entries.length)

/-- `Slab::remove(i)` as used by `List::remove` (the caller has already
checked `contains i`): vacate slot `i` and push it on the free stack. -/
def removeAt (s : Slab T) (i : Nat) : Slab T :=
  ⟨setSlot s.entries i none, i :: s.free⟩

/-- `Slab::get_unchecked_mut(i)` followed by a field update.  The source
only uses the unchecked path on indices it has just asserted to be
occupied (`debug_assert!(self.inner.contains(ix))`), so modelling the
vacant case as a no-op is unobservable on those paths. -/
def modifyAt (s : Slab T) (i : Nat) (f : T → T) : Slab T :=
  match lookupSlot s.entries i with
  | some v => ⟨setSlot s.entries i (some (f v)), s.free⟩
  | none => s

end Slab

/-- `List<T>` from the source: a slab of nodes plus the optional indices
`init` (head) and `last` (tail). -/
structure LList (T : Type) where
  inner : Slab (Node T)
  init : Option Nat
  last : Option Nat
deriving Repr, DecidableEq

namespace LList

variable {T : Type}

/-- `List::new` / `Default::default`. -/
def new (T : Type) : LList T := ⟨⟨[], []⟩, none, none⟩

/-- `List::get`. -/
def get (l : LList T) (id : Nat) : Option (Node T) := l.inner.get id

/-- `List::contains`. -/
def contains (l : LList T) (id : Nat) : Bool := l.inner.contains id

/-- `List::push_front`: take a vacant key, set
`next := self.init.replace(key)`, insert `Node { item, next, prev: None }`,
and if the old head existed set its `prev` to the new key.  Note that the
source never writes `self.last` in this method. -/
def pushFront (l : LList T) (item : T) : LList T × Nat :=
  let r := l.inner.insert ⟨item, l.init, none⟩
  let key := r.2
  let inner :=
    match l.init with
    | some ix => r.1.modifyAt ix (fun n => { n with prev := some key })
    | none => r.1
  (⟨inner, some key, l.last⟩, key)

/-- `List::push_back`: symmetric to `push_front`, via `self.last`; the
source never writes `self.init` in this method. -/
def pushBack (l : LList T) (item : T) : LList T × Nat :=
  let r := l.inner.insert ⟨item, none, l.last⟩
  let key := r.2
  let inner :=
    match l.last with
    | some ix => r.1.modifyAt ix (fun n => { n with next := some key })
    | none => r.1
  (⟨inner, l.init, some key⟩, key)

/-- `List::remove`: bail out with `None` when the slot is not occupied
(`!self.inner.contains(id.0)` is the same test as `get id = none`);
otherwise vacate the slot, splice `prev`/`next` neighbours (or `init`/`last`
when absent) and return the removed node. -/
def remove (l : LList T) (id : Nat) : LList T × Option (Node T) :=
  match l.inner.get id with
  | none => (l, none)
  | some node =>
    let inner0 := l.inner.removeAt id
    let step1 : Slab (Node T) × Option Nat :=
      match node.prev with
      | some p => (inner0.modifyAt p (fun n => { n with next := node.next }), l.init)
      | none => (inner0, node.next)
    let step2 : Slab (Node T) × Option Nat :=
      match node.next with
      | some q => (step1.1.modifyAt q (fun n => { n with prev := node.prev }), l.last)
      | none => (step1.1, node.prev)
    (⟨step2.1, step1.2, step2.2⟩, some node)

/-- `List::pop_front`: `self.remove(self.init()?)`. -/
def popFront (l : LList T) : LList T × Option (Node T) :=
  match l.init with
  | none => (l, none)
  | some h => l.remove h

/-- `List::pop_back`: `self.remove(self.last()?)`. -/
def popBack (l : LList T) : LList T × Option (Node T) :=
  match l.last with
  | none => (l, none)
  | some h => l.remove h

/-- `Cursor` / `CursorMut`: an optional current slot index.  The borrowed
list is passed explicitly to each operation.  `CursorMut::try_next` and
`try_prev` are textually identical to the read-only versions, so one model
serves both. -/
structure Cursor where
  current : Option Nat
deriving Repr, DecidableEq

/-- `List::cursor_front` (and `cursor_front_mut`). -/
def cursorFront (l : LList T) : Cursor := ⟨l.init⟩

/-- `List::cursor_back` (and `cursor_back_mut`). -/
def cursorBack (l : LList T) : Cursor := ⟨l.last⟩

/-- `List::cursor_at` (and `cursor_at_mut`): anchors at the given index
without any occupancy check. -/
def cursorAt (_ : LList T) (id : Nat) : Cursor := ⟨some id⟩

/-- `Cursor::current` (and `CursorMut::current`):
`self.backing.inner.get(self.current?)`. -/
def curNode (l : LList T) (c : Cursor) : Option (Node T) :=
  match c.current with
  | none => none
  | some ix => l.inner.get ix

/-- `Cursor::try_next`: step to the successor when the current node has
one, else stay put and report `false`. -/
def tryNext (l : LList T) (c : Cursor) : Cursor × Bool :=
  match (curNode l c).bind Node.next with
  | some ix => (⟨some ix⟩, true)
  | none => (c, false)

/-- `Cursor::try_prev`: symmetric, via the predecessor. -/
def tryPrev (l : LList T) (c : Cursor) : Cursor × Bool :=
  match (curNode l c).bind Node.prev with
  | some ix => (⟨some ix⟩, true)
  | none => (c, false)

/-- Writing the payload through `List::get_mut` (or `CursorMut::current`)
and `DerefMut`, which exposes only the `item` field: the effect of
`if let Some(n) = list.get_mut(id) \x7b **n = f(**n) \x7d`. -/
def setItem (l : LList T) (id : Nat) (f : T → T) : LList T :=
  { l with inner := l.inner.modifyAt id (fun n => { n with item := f n.item }) }

/-- The list is empty: no slot of the arena is occupied. -/
def isEmpty (l : LList T) : Bool := l.inner.entries.all Option.isNone

/-- Spec section 3, invariant 1: `head` is absent iff the list is empty iff
`tail` is absent. -/
def invariant1 (l : LList T) : Bool :=
  (l.init.isNone == l.isEmpty) && (l.last.isNone == l.isEmpty)

/-- Forward walk from a starting index via `next`, visiting only occupied
slots, with fuel to guarantee termination on arbitrary states. -/
def walkNext (l : LList T) : Nat → Option Nat → List Nat
  | _, none => []
  | 0, some _ => []
  | fuel + 1, some ix =>
    match l.get ix with
    | none => []
    | some n => ix :: walkNext l fuel n.next

/-- Backward walk via `prev`, the mirror image of `walkNext`. -/
def walkPrev (l : LList T) : Nat → Option Nat → List Nat
  | _, none => []
  | 0, some _ => []
  | fuel + 1, some ix =>
    match l.get ix with
    | none => []
    | some n => ix :: walkPrev l fuel n.prev

/-- The full forward traversal: from `head` via `next` until absent. -/
def forwardWalk (l : LList T) : List Nat :=
  walkNext l (l.inner.entries.length + 1) l.init

/-- The full backward traversal: from `tail` via `prev` until absent. -/
def backwardWalk (l : LList T) : List Nat :=
  walkPrev l (l.inner.entries.length + 1) l.last

end LList

/-! Basic lemmas about slots and the slab operations. -/

theorem lookupSlot_setSlot_of_some {T : Type} (l : List (Option T)) (i : Nat) (w : T)
    (h : lookupSlot l i = some w) (v : Option T) :
    lookupSlot (setSlot l i v) i = v := by
  induction l generalizing i with
  | nil => simp [lookupSlot] at h
  | cons o rest ih =>
    cases i with
    | zero => rfl
    | succ n => exact ih n h

theorem lookupSlot_setSlot_none {T : Type} (l : List (Option T)) (i : Nat) :
    lookupSlot (setSlot l i none) i = none := by
  induction l generalizing i with
  | nil => rfl
  | cons o rest ih =>
    cases i with
    | zero => rfl
    | succ n => exact ih n

theorem lookupSlot_setSlot_ne {T : Type} (l : List (Option T)) (i j : Nat)
    (h : i ≠ j) (v : Option T) :
    lookupSlot (setSlot l i v) j = lookupSlot l j := by
  induction l generalizing i j with
  | nil => rfl
  | cons o rest ih =>
    cases i with
    | zero =>
      cases j with
      | zero => exact absurd rfl h
      | succ m => rfl
    | succ n =>
      cases j with
      | zero => rfl
      | succ m => exact ih n m (fun e => h (by rw [e]))

namespace Slab

variable {T : Type}

theorem get_removeAt_self (s : Slab T) (i : Nat) : (s.removeAt i).get i = none :=
  lookupSlot_setSlot_none s.entries i

theorem get_removeAt_ne (s : Slab T) (i j : Nat) (h : i ≠ j) :
    (s.removeAt i).get j = s.get j :=
  lookupSlot_setSlot_ne s.entries i j h none

theorem get_modifyAt_self (s : Slab T) (i : Nat) (f : T → T) (v : T)
    (h : s.get i = some v) : (s.modifyAt i f).get i = some (f v) := by
  unfold modifyAt
  rw [show lookupSlot s.entries i = some v from h]
  exact lookupSlot_setSlot_of_some s.entries i v h (some (f v))

theorem get_modifyAt_ne (s : Slab T) (i j : Nat) (f : T → T) (h : i ≠ j) :
    (s.modifyAt i f).get j = s.get j := by
  unfold modifyAt
  cases hl : lookupSlot s.entries i with
  | none => rfl
  | some v => exact lookupSlot_setSlot_ne s.entries i j h (some (f v))

theorem modifyAt_vacant (s : Slab T) (i : Nat) (f : T → T)
    (h : s.get i = none) : s.modifyAt i f = s := by
  unfold modifyAt
  rw [show lookupSlot s.entries i = none from h]

end Slab

/-- Claim C1: the claim states that `push_front` on an empty list sets the
tail to the new handle.  Evaluating the code on the empty list shows that
`push_front` stores the node and sets `init` (head) to the new key 0, but
leaves `last` (tail) absent: the source method never writes `self.last`. -/
theorem c1_pushFront_on_empty_leaves_tail_absent :
    ((LList.new Nat).pushFront 0).1.init = some 0 ∧
    ((LList.new Nat).pushFront 0).1.last = none ∧
    ((LList.new Nat).pushFront 0).1.get 0 = some ⟨0, none, none⟩ := by
  refine ⟨rfl, rfl, rfl⟩

/-- Claim C2: the claim states that the four invariants of spec section 3
hold after every call of any sequence.  After the one-call sequence
`push_front 0` from the empty list, invariant 1 (head absent iff empty iff
tail absent) is already false: the list is non-empty with `head = some 0`
but `tail = none`. -/
theorem c2_invariant1_fails_after_one_pushFront :
    LList.invariant1 ((LList.new Nat).pushFront 0).1 = false := by
  rfl

/-- Claim C3: the claim states that in every reachable state the forward
and backward traversals visit the same handles in reversed order.  In the
state reached from empty by `push_front 0`, the forward walk from the head
visits `[0]` while the backward walk from the (absent) tail visits `[]`. -/
theorem c3_walks_not_reversed_after_pushFront :
    LList.forwardWalk ((LList.new Nat).pushFront 0).1 = [0] ∧
    LList.backwardWalk ((LList.new Nat).pushFront 0).1 = [] ∧
    LList.forwardWalk ((LList.new Nat).pushFront 0).1 ≠
      (LList.backwardWalk ((LList.new Nat).pushFront 0).1).reverse := by
  refine ⟨rfl, rfl, by decide⟩

/-- Claim C6: the claim states that `push_front x` then `pop_front`
returns `x` and restores the pre-push state (handle reuse aside).  From
the state `s1` reached by `push_back 1` on the empty list (which has
`init = none`, `last = some 0`), `push_front 2` followed by `pop_front`
does return the node with payload 2, but the resulting state has
`last = none` where `s1` had `last = some 0`, and its traversal has lost
the element 1 even though slot 0 is still occupied. -/
theorem c6_pushFront_popFront_does_not_restore :
    (((LList.new Nat).pushBack 1).1.pushFront 2).1.popFront.2 =
      some ⟨2, none, none⟩ ∧
    ((LList.new Nat).pushBack 1).1.last = some 0 ∧
    (((LList.new Nat).pushBack 1).1.pushFront 2).1.popFront.1.last = none ∧
    (((LList.new Nat).pushBack 1).1.pushFront 2).1.popFront.1.get 0 =
      some ⟨1, none, none⟩ := by
  refine ⟨rfl, rfl, rfl, rfl⟩

/-- Claim C4: for every list state and every handle that does not name a
currently occupied slot, `remove` returns absent and leaves the list
entirely unchanged (the source bails out before touching any field). -/
theorem c4_remove_unoccupied_is_noop {T : Type} (l : LList T) (id : Nat)
    (h : l.get id = none) : l.remove id = (l, none) := by
  unfold LList.remove
  rw [show l.inner.get id = none from h]

/-- Witness for C4: removing the never-issued handle 5 from the empty list. -/
theorem c4_witness :
    (LList.new Nat).get 5 = none ∧ (LList.new Nat).remove 5 = (LList.new Nat, none) :=
  ⟨rfl, c4_remove_unoccupied_is_noop (LList.new Nat) 5 rfl⟩

/-- Claim C7: `pop_front` is `remove` applied to the current head handle and
`pop_back` is `remove` applied to the current tail handle; when the endpoint
is absent (the empty list) they return absent and change nothing. -/
theorem c7_pop_is_remove_at_endpoint {T : Type} (l : LList T) :
    (l.init = none → l.popFront = (l, none)) ∧
    (∀ h, l.init = some h → l.popFront = l.remove h) ∧
    (l.last = none → l.popBack = (l, none)) ∧
    (∀ h, l.last = some h → l.popBack = l.remove h) := by
  refine ⟨fun h => ?_, fun h hh => ?_, fun h => ?_, fun h hh => ?_⟩
  · unfold LList.popFront; rw [h]
  · unfold LList.popFront; rw [hh]
  · unfold LList.popBack; rw [h]
  · unfold LList.popBack; rw [hh]

/-- Witness for C7: on the empty list both pops return absent without any
state change. -/
theorem c7_witness :
    (LList.new Nat).init = none ∧
    (LList.new Nat).popFront = (LList.new Nat, none) ∧
    (LList.new Nat).popBack = (LList.new Nat, none) :=
  ⟨rfl, (c7_pop_is_remove_at_endpoint (LList.new Nat)).1 rfl,
    (c7_pop_is_remove_at_endpoint (LList.new Nat)).2.2.1 rfl⟩

/-- Claim C9: anchoring a cursor at a handle that is not currently occupied
yields a cursor whose position queries uniformly return absent: `current`
is absent and both steps return false leaving the cursor unchanged. -/
theorem c9_cursorAt_stale_is_absent {T : Type} (l : LList T) (id : Nat)
    (h : l.get id = none) :
    LList.curNode l (l.cursorAt id) = none ∧
    LList.tryNext l (l.cursorAt id) = (l.cursorAt id, false) ∧
    LList.tryPrev l (l.cursorAt id) = (l.cursorAt id, false) := by
  have h1 : LList.curNode l (l.cursorAt id) = none := h
  refine ⟨h1, ?_, ?_⟩
  · unfold LList.tryNext
    rw [h1]
    rfl
  · unfold LList.tryPrev
    rw [h1]
    rfl

/-- Witness for C9: a cursor anchored at the stale handle 3 of the empty
list answers absent everywhere. -/
theorem c9_witness :
    (LList.new Nat).get 3 = none ∧
    (LList.curNode (LList.new Nat) ((LList.new Nat).cursorAt 3) = none ∧
      LList.tryNext (LList.new Nat) ((LList.new Nat).cursorAt 3) =
        ((LList.new Nat).cursorAt 3, false) ∧
      LList.tryPrev (LList.new Nat) ((LList.new Nat).cursorAt 3) =
        ((LList.new Nat).cursorAt 3, false)) :=
  ⟨rfl, c9_cursorAt_stale_is_absent (LList.new Nat) 3 rfl⟩

/-- Claim C10: mutating a node's payload through the `DerefMut` target of
`get_mut` (or a mutable cursor's `current`) changes only the payload value:
the node's `next` and `prev` links, every other slot, and the list's head
and tail fields are unchanged. -/
theorem c10_payload_mutation_frame {T : Type} (l : LList T) (id : Nat) (f : T → T) :
    (l.setItem id f).init = l.init ∧
    (l.setItem id f).last = l.last ∧
    (∀ j, j ≠ id → (l.setItem id f).get j = l.get j) ∧
    (∀ n, l.get id = some n →
      (l.setItem id f).get id = some ⟨f n.item, n.next, n.prev⟩) ∧
    (l.get id = none → (l.setItem id f).get id = none) := by
  refine ⟨rfl, rfl, fun j hj => ?_, fun n hn => ?_, fun hn => ?_⟩
  · exact Slab.get_modifyAt_ne l.inner id j _ (fun e => hj e.symm)
  · exact Slab.get_modifyAt_self l.inner id _ n hn
  · show (l.inner.modifyAt id (fun n => { n with item := f n.item })).get id = none
    rw [Slab.modifyAt_vacant l.inner id _ hn]
    exact hn

/-- Witness for C10: doubling the payload of node 0 in a two-node list
leaves links, the other node, and head and tail untouched. -/
theorem c10_witness :
    (LList.setItem ⟨⟨[some ⟨5, some 1, none⟩, some ⟨6, none, some 0⟩], []⟩,
        some 0, some 1⟩ 0 (fun x => x * 2) : LList Nat).get 1 =
      some ⟨6, none, some 0⟩ ∧
    (LList.setItem ⟨⟨[some ⟨5, some 1, none⟩, some ⟨6, none, some 0⟩], []⟩,
        some 0, some 1⟩ 0 (fun x => x * 2) : LList Nat).get 0 =
      some ⟨10, some 1, none⟩ :=
  ⟨(c10_payload_mutation_frame
      (⟨⟨[some ⟨5, some 1, none⟩, some ⟨6, none, some 0⟩], []⟩,
        some 0, some 1⟩ : LList Nat) 0 (fun x => x * 2)).2.2.1 1 (by decide),
   (c10_payload_mutation_frame
      (⟨⟨[some ⟨5, some 1, none⟩, some ⟨6, none, some 0⟩], []⟩,
        some 0, some 1⟩ : LList Nat) 0 (fun x => x * 2)).2.2.2.1
      ⟨5, some 1, none⟩ rfl⟩

/-- Claim C8: if the current node has a successor, `try_next` moves the
cursor there and returns true, else leaves it unmoved returning false;
`try_prev` is symmetric via the predecessor.  In particular a cursor
anchored at the head (whose node has no predecessor) answers false to
`try_prev`, stays put, and `current` still yields the head node. -/
theorem c8_cursor_step_semantics {T : Type} (l : LList T) (c : LList.Cursor) :
    (∀ ix, (LList.curNode l c).bind Node.next = some ix →
      LList.tryNext l c = (⟨some ix⟩, true)) ∧
    ((LList.curNode l c).bind Node.next = none → LList.tryNext l c = (c, false)) ∧
    (∀ ix, (LList.curNode l c).bind Node.prev = some ix →
      LList.tryPrev l c = (⟨some ix⟩, true)) ∧
    ((LList.curNode l c).bind Node.prev = none → LList.tryPrev l c = (c, false)) ∧
    (∀ h n, l.init = some h → l.get h = some n → n.prev = none →
      LList.tryPrev l l.cursorFront = (l.cursorFront, false) ∧
      LList.curNode l l.cursorFront = some n) := by
  refine ⟨fun ix hx => ?_, fun hx => ?_, fun ix hx => ?_, fun hx => ?_,
    fun h n hh hg hpv => ?_⟩
  · unfold LList.tryNext
    rw [hx]
  · unfold LList.tryNext
    rw [hx]
  · unfold LList.tryPrev
    rw [hx]
  · unfold LList.tryPrev
    rw [hx]
  · have hcur : LList.curNode l l.cursorFront = some n := by
      simp only [LList.cursorFront, LList.curNode, hh]
      exact hg
    have hbind : (LList.curNode l l.cursorFront).bind Node.prev = none := by
      rw [hcur]
      exact hpv
    refine ⟨?_, hcur⟩
    unfold LList.tryPrev
    rw [hbind]

/-- Witness for C8: in the one-node list holding 7, the front cursor
refuses to retreat and still shows the head node. -/
theorem c8_witness :
    (⟨⟨[some ⟨7, none, none⟩], []⟩, some 0, some 0⟩ : LList Nat).init = some 0 ∧
    (LList.tryPrev (⟨⟨[some ⟨7, none, none⟩], []⟩, some 0, some 0⟩ : LList Nat)
        (LList.cursorFront ⟨⟨[some ⟨7, none, none⟩], []⟩, some 0, some 0⟩) =
        (LList.cursorFront ⟨⟨[some ⟨7, none, none⟩], []⟩, some 0, some 0⟩, false) ∧
      LList.curNode (⟨⟨[some ⟨7, none, none⟩], []⟩, some 0, some 0⟩ : LList Nat)
        (LList.cursorFront ⟨⟨[some ⟨7, none, none⟩], []⟩, some 0, some 0⟩) =
        some ⟨7, none, none⟩) :=
  ⟨rfl, (c8_cursor_step_semantics
      (⟨⟨[some ⟨7, none, none⟩], []⟩, some 0, some 0⟩ : LList Nat)
      (LList.cursorFront ⟨⟨[some ⟨7, none, none⟩], []⟩, some 0, some 0⟩)).2.2.2.2
      0 ⟨7, none, none⟩ rfl rfl rfl⟩

/-- Claim C5: removing an occupied handle vacates its slot, rewires the
predecessor's `next` (or `head`) to the removed node's `next`, rewires the
successor's `prev` (or `tail`) to the removed node's `prev`, and returns
the removed node with the neighbour links it held just before removal.
The two occupancy side conditions mirror the source's
`debug_assert!(self.inner.contains(..))` on the neighbour indices. -/
theorem c5_remove_occupied_relinks {T : Type} (l : LList T) (id : Nat) (node : Node T)
    (h : l.get id = some node)
    (hp : node.prev.all (fun p => decide (p ≠ id) && (l.get p).isSome) = true)
    (hq : node.next.all (fun q => decide (q ≠ id) && (l.get q).isSome) = true) :
    (l.remove id).2 = some node ∧
    (l.remove id).1.get id = none ∧
    (node.prev = none → (l.remove id).1.init = node.next) ∧
    (node.next = none → (l.remove id).1.last = node.prev) ∧
    (∀ p, node.prev = some p → (l.remove id).1.init = l.init ∧
      ∃ n2, (l.remove id).1.get p = some n2 ∧ n2.next = node.next) ∧
    (∀ q, node.next = some q → (l.remove id).1.last = l.last ∧
      ∃ n2, (l.remove id).1.get q = some n2 ∧ n2.prev = node.prev) := by
  have h0 : l.inner.get id = some node := h
  rcases hP : node.prev with _ | p <;> rcases hQ : node.next with _ | q
  · -- no predecessor, no successor
    have hr : l.remove id = (⟨l.inner.removeAt id, none, none⟩, some node) := by
      simp only [LList.remove, h0, hP, hQ]
    refine ⟨?_, ?_, ?_, ?_, ?_, ?_⟩
    · rw [hr]
    · rw [hr]
      exact Slab.get_removeAt_self l.inner id
    · intro hc
      rw [hr]
    · intro hc
      rw [hr]
    · intro p hc
      cases hc
    · intro q hc
      cases hc
  · -- no predecessor, successor q
    rw [hQ] at hq
    simp only [Option.all, Bool.and_eq_true, decide_eq_true_eq] at hq
    obtain ⟨hqid, hqocc⟩ := hq
    obtain ⟨nq, hnq⟩ := Option.isSome_iff_exists.mp hqocc
    have hq5 : (l.inner.removeAt id).get q = some nq := by
      rw [Slab.get_removeAt_ne l.inner id q (Ne.symm hqid)]
      exact hnq
    have hr : l.remove id =
        (⟨(l.inner.removeAt id).modifyAt q (fun n => ⟨n.item, n.next, none⟩),
          some q, l.last⟩, some node) := by
      simp only [LList.remove, h0, hP, hQ]
    refine ⟨?_, ?_, ?_, ?_, ?_, ?_⟩
    · rw [hr]
    · rw [hr]
      show ((l.inner.removeAt id).modifyAt q (fun n => ⟨n.item, n.next, none⟩)).get id = none
      rw [Slab.get_modifyAt_ne _ q id _ hqid]
      exact Slab.get_removeAt_self l.inner id
    · intro hc
      rw [hr]
    · intro hc
      cases hc
    · intro p hc
      cases hc
    · intro q2 hc
      obtain rfl : q = q2 := Option.some.inj hc
      have g6 : ((l.inner.removeAt id).modifyAt q (fun n => ⟨n.item, n.next, none⟩)).get q =
          some ⟨nq.item, nq.next, none⟩ := by
        rw [Slab.get_modifyAt_self _ q _ nq hq5]
      refine ⟨?_, ⟨nq.item, nq.next, none⟩, ?_, rfl⟩
      · rw [hr]
      · rw [hr]
        exact g6
  · -- predecessor p, no successor
    rw [hP] at hp
    simp only [Option.all, Bool.and_eq_true, decide_eq_true_eq] at hp
    obtain ⟨hpid, hpocc⟩ := hp
    obtain ⟨np, hnp⟩ := Option.isSome_iff_exists.mp hpocc
    have hp5 : (l.inner.removeAt id).get p = some np := by
      rw [Slab.get_removeAt_ne l.inner id p (Ne.symm hpid)]
      exact hnp
    have hr : l.remove id =
        (⟨(l.inner.removeAt id).modifyAt p (fun n => ⟨n.item, none, n.prev⟩),
          l.init, some p⟩, some node) := by
      simp only [LList.remove, h0, hP, hQ]
    refine ⟨?_, ?_, ?_, ?_, ?_, ?_⟩
    · rw [hr]
    · rw [hr]
      show ((l.inner.removeAt id).modifyAt p (fun n => ⟨n.item, none, n.prev⟩)).get id = none
      rw [Slab.get_modifyAt_ne _ p id _ hpid]
      exact Slab.get_removeAt_self l.inner id
    · intro hc
      cases hc
    · intro hc
      rw [hr]
    · intro p2 hc
      obtain rfl : p = p2 := Option.some.inj hc
      have g5 : ((l.inner.removeAt id).modifyAt p (fun n => ⟨n.item, none, n.prev⟩)).get p =
          some ⟨np.item, none, np.prev⟩ := by
        rw [Slab.get_modifyAt_self _ p _ np hp5]
      refine ⟨?_, ⟨np.item, none, np.prev⟩, ?_, rfl⟩
      · rw [hr]
      · rw [hr]
        exact g5
    · intro q hc
      cases hc
  · -- predecessor p and successor q
    rw [hP] at hp
    rw [hQ] at hq
    simp only [Option.all, Bool.and_eq_true, decide_eq_true_eq] at hp hq
    obtain ⟨hpid, hpocc⟩ := hp
    obtain ⟨hqid, hqocc⟩ := hq
    obtain ⟨np, hnp⟩ := Option.isSome_iff_exists.mp hpocc
    obtain ⟨nq, hnq⟩ := Option.isSome_iff_exists.mp hqocc
    have hp5 : (l.inner.removeAt id).get p = some np := by
      rw [Slab.get_removeAt_ne l.inner id p (Ne.symm hpid)]
      exact hnp
    have hq5 : (l.inner.removeAt id).get q = some nq := by
      rw [Slab.get_removeAt_ne l.inner id q (Ne.symm hqid)]
      exact hnq
    have hr : l.remove id =
        (⟨((l.inner.removeAt id).modifyAt p (fun n => ⟨n.item, some q, n.prev⟩)).modifyAt q
            (fun n => ⟨n.item, n.next, some p⟩), l.init, l.last⟩, some node) := by
      simp only [LList.remove, h0, hP, hQ]
    refine ⟨?_, ?_, ?_, ?_, ?_, ?_⟩
    · rw [hr]
    · rw [hr]
      show (((l.inner.removeAt id).modifyAt p (fun n => ⟨n.item, some q, n.prev⟩)).modifyAt q
        (fun n => ⟨n.item, n.next, some p⟩)).get id = none
      rw [Slab.get_modifyAt_ne _ q id _ hqid, Slab.get_modifyAt_ne _ p id _ hpid]
      exact Slab.get_removeAt_self l.inner id
    · intro hc
      cases hc
    · intro hc
      cases hc
    · intro p2 hc
      obtain rfl : p = p2 := Option.some.inj hc
      refine ⟨?_, ?_⟩
      · rw [hr]
      · by_cases hqp : q = p
        · subst hqp
          have g1 : ((l.inner.removeAt id).modifyAt q
              (fun n => ⟨n.item, some q, n.prev⟩)).get q =
              some ⟨np.item, some q, np.prev⟩ := by
            rw [Slab.get_modifyAt_self _ q _ np hp5]
          have g2 : (((l.inner.removeAt id).modifyAt q
              (fun n => ⟨n.item, some q, n.prev⟩)).modifyAt q
              (fun n => ⟨n.item, n.next, some q⟩)).get q =
              some ⟨np.item, some q, some q⟩ := by
            rw [Slab.get_modifyAt_self _ q _ ⟨np.item, some q, np.prev⟩ g1]
          refine ⟨⟨np.item, some q, some q⟩, ?_, rfl⟩
          rw [hr]
          exact g2
        · have g1 : ((l.inner.removeAt id).modifyAt p
              (fun n => ⟨n.item, some q, n.prev⟩)).get p =
              some ⟨np.item, some q, np.prev⟩ := by
            rw [Slab.get_modifyAt_self _ p _ np hp5]
          have g2 : (((l.inner.removeAt id).modifyAt p
              (fun n => ⟨n.item, some q, n.prev⟩)).modifyAt q
              (fun n => ⟨n.item, n.next, some p⟩)).get p =
              some ⟨np.item, some q, np.prev⟩ := by
            rw [Slab.get_modifyAt_ne _ q p _ hqp]
            exact g1
          refine ⟨⟨np.item, some q, np.prev⟩, ?_, rfl⟩
          rw [hr]
          exact g2
    · intro q2 hc
      obtain rfl : q = q2 := Option.some.inj hc
      refine ⟨?_, ?_⟩
      · rw [hr]
      · by_cases hpq : p = q
        · subst hpq
          have g1 : ((l.inner.removeAt id).modifyAt p
              (fun n => ⟨n.item, some p, n.prev⟩)).get p =
              some ⟨np.item, some p, np.prev⟩ := by
            rw [Slab.get_modifyAt_self _ p _ np hp5]
          have g2 : (((l.inner.removeAt id).modifyAt p
              (fun n => ⟨n.item, some p, n.prev⟩)).modifyAt p
              (fun n => ⟨n.item, n.next, some p⟩)).get p =
              some ⟨np.item, some p, some p⟩ := by
            rw [Slab.get_modifyAt_self _ p _ ⟨np.item, some p, np.prev⟩ g1]
          refine ⟨⟨np.item, some p, some p⟩, ?_, rfl⟩
          rw [hr]
          exact g2
        · have g1 : ((l.inner.removeAt id).modifyAt p
              (fun n => ⟨n.item, some q, n.prev⟩)).get q = some nq := by
            rw [Slab.get_modifyAt_ne _ p q _ hpq]
            exact hq5
          have g2 : (((l.inner.removeAt id).modifyAt p
              (fun n => ⟨n.item, some q, n.prev⟩)).modifyAt q
              (fun n => ⟨n.item, n.next, some p⟩)).get q =
              some ⟨nq.item, nq.next, some p⟩ := by
            rw [Slab.get_modifyAt_self _ q _ nq g1]
          refine ⟨⟨nq.item, nq.next, some p⟩, ?_, rfl⟩
          rw [hr]
          exact g2

/-- Witness for C5: removing the middle node of the three-node chain
10 - 11 - 12 splices its neighbours together and returns the node. -/
theorem c5_witness :
    ((⟨⟨[some ⟨10, some 1, none⟩, some ⟨11, some 2, some 0⟩,
          some ⟨12, none, some 1⟩], []⟩, some 0, some 2⟩ : LList Nat).get 1 =
      some ⟨11, some 2, some 0⟩) ∧
    (((⟨⟨[some ⟨10, some 1, none⟩, some ⟨11, some 2, some 0⟩,
          some ⟨12, none, some 1⟩], []⟩, some 0, some 2⟩ : LList Nat).remove 1).2 =
      some ⟨11, some 2, some 0⟩ ∧
    ((⟨⟨[some ⟨10, some 1, none⟩, some ⟨11, some 2, some 0⟩,
          some ⟨12, none, some 1⟩], []⟩, some 0, some 2⟩ : LList Nat).remove 1).1.get 1 =
      none) :=
  ⟨rfl,
    (c5_remove_occupied_relinks
      (⟨⟨[some ⟨10, some 1, none⟩, some ⟨11, some 2, some 0⟩,
          some ⟨12, none, some 1⟩], []⟩, some 0, some 2⟩ : LList Nat) 1
      ⟨11, some 2, some 0⟩ rfl (by decide) (by decide)).1,
    (c5_remove_occupied_relinks
      (⟨⟨[some ⟨10, some 1, none⟩, some ⟨11, some 2, some 0⟩,
          some ⟨12, none, some 1⟩], []⟩, some 0, some 2⟩ : LList Nat) 1
      ⟨11, some 2, some 0⟩ rfl (by decide) (by decide)).2.1⟩
